import Mathlib

/-!
Verification of the compartmental epidemic core of the pydemic/covid-19
repository: a shallow embedding of `covid/models/model.py` (the generic
RK4 time stepper and `run` loop), `covid/models/seichar.py` (the scalar
SEICHAR model) and `covid/models/seichar_demographic.py` (the stratified
model), with theorems settling the specification claims about them.

Machine floats of the source are embedded as exact rationals; decimal
literals such as `1e-50` become the exact rational `1 / 10 ^ 50`.
-/

namespace Covid

/-- A scalar SEICHAR state: one rational per compartment, indexed in the
column order of `SEICHAR.columns`: 0 susceptible, 1 exposed, 2 infectious,
3 critical, 4 hospitalized, 5 asymptomatic, 6 recovered, 7 fatalities. -/
abbrev Vec := Fin 8 → ℚ

/-- The epidemiological / clinical attributes of a `SEICHAR` instance that
enter the dynamics (class attributes of `SEICHAR`, possibly overridden per
instance).  `R0` is a function of time, covering both the constant case and
the callable case of `SEICHAR.beta`.  `hospital_capacity` and
`icu_capacity` are the cached capacity figures consulted by `diff`. -/
structure SEICHARParams where
  R0 : ℚ → ℚ
  rho : ℚ
  prob_symptomatic : ℚ
  import_rate : ℚ
  import_asymptomatic : Bool
  sigma : ℚ
  gamma_i : ℚ
  gamma_a : ℚ
  gamma_h : ℚ
  gamma_c : ℚ
  gamma_hr : ℚ
  gamma_cr : ℚ
  prob_hospitalization : ℚ
  prob_icu : ℚ
  prob_fatality : ℚ
  prob_no_hospitalization_fatality : ℚ
  prob_no_icu_fatality : ℚ
  vital_dynamics : Bool
  kappa : ℚ
  mu : ℚ
  hospital_capacity : ℚ
  icu_capacity : ℚ

/-- `self._mu = self.mu if self.vital_dynamics else 0.0` in
`SEICHAR.__init__`. -/
def muEff (p : SEICHARParams) : ℚ := if p.vital_dynamics then p.mu else 0

/-- `SEICHAR.asympt_import_rate`. -/
def asympt_import_rate (p : SEICHARParams) : ℚ :=
  if p.import_asymptomatic then p.import_rate / p.prob_symptomatic else 0

/-- `SEICHAR.beta`. -/
def beta (p : SEICHARParams) (t : ℚ) : ℚ :=
  p.R0 t * (p.gamma_i + muEff p) * (p.sigma + p.prob_symptomatic * muEff p)
    / p.sigma / (p.prob_symptomatic + (1 - p.prob_symptomatic) * p.rho)

/-- `SEICHAR.lambd` (scalar model): note the denominator is `n`, with no
epsilon guard. -/
def lambd (p : SEICHARParams) (n i a t : ℚ) : ℚ :=
  beta p t * (i + p.rho * a) / n

/-- `SEICHAR.diff_s` (`self._infections(lambd, s)` is `lambd * s` in the
scalar model). -/
def diff_s (p : SEICHARParams) (s n lam t : ℚ) : ℚ :=
  if p.vital_dynamics then p.kappa * n - lam * s - p.mu * s - p.import_rate
  else -(lam * s) - p.import_rate

/-- `SEICHAR.diff_e`. -/
def diff_e (p : SEICHARParams) (s e lam t : ℚ) : ℚ :=
  lam * s - p.sigma * e - muEff p * e

/-- `SEICHAR.diff_i`. -/
def diff_i (p : SEICHARParams) (e i t : ℚ) : ℚ :=
  p.prob_symptomatic * p.sigma * e - p.gamma_i * i - muEff p * i + p.import_rate

/-- `SEICHAR.diff_c`. -/
def diff_c (p : SEICHARParams) (h cminus cplus t : ℚ) : ℚ :=
  p.prob_icu * p.gamma_h * h - p.gamma_c * cminus - p.gamma_cr * cplus
    - muEff p * (cminus + cplus)

/-- `SEICHAR.diff_h`. -/
def diff_h (p : SEICHARParams) (i hminus hplus cminus t : ℚ) : ℚ :=
  p.prob_hospitalization * p.gamma_i * i - p.gamma_h * hminus
    - p.prob_icu * p.gamma_h * hplus - p.gamma_hr * hplus
    + (1 - p.prob_fatality) * p.gamma_c * cminus - muEff p * (hminus + hplus)

/-- `SEICHAR.diff_a`. -/
def diff_a (p : SEICHARParams) (e a t : ℚ) : ℚ :=
  (1 - p.prob_symptomatic) * p.sigma * e - p.gamma_a * a - muEff p * a
    + asympt_import_rate p

/-- `SEICHAR.diff_r`. -/
def diff_r (p : SEICHARParams) (a i hminus hplus cminus cplus r t : ℚ) : ℚ :=
  p.gamma_a * a + (1 - p.prob_hospitalization) * p.gamma_i * i
    + (1 - p.prob_icu) * p.gamma_h * hminus
    + (1 - p.prob_no_hospitalization_fatality) * p.gamma_hr * hplus
    + (1 - p.prob_no_icu_fatality) * p.gamma_cr * cplus - muEff p * r

/-- `SEICHAR.diff_f`. -/
def diff_f (p : SEICHARParams) (hplus cminus cplus t : ℚ) : ℚ :=
  p.prob_fatality * p.gamma_c * cminus
    + p.prob_no_hospitalization_fatality * p.gamma_hr * hplus
    + p.prob_no_icu_fatality * p.gamma_cr * cplus

/-- `SEICHAR.diff_seichar`: the eight derivative components in column
order, with `n` the live population (fatalities excluded). -/
def diff_seichar (p : SEICHARParams)
    (s e i cminus cplus hminus hplus a r f t : ℚ) : Vec :=
  let n := s + e + i + cminus + cplus + hminus + hplus + a + r
  let lam := lambd p n i a t
  ![diff_s p s n lam t,
    diff_e p s e lam t,
    diff_i p e i t,
    diff_c p (hminus + hplus) cminus cplus t,
    diff_h p i hminus hplus cminus t,
    diff_a p e a t,
    diff_r p a i hminus hplus cminus cplus r t,
    diff_f p hplus cminus cplus t]

/-- `hplus = max(0, h - self.hospital_capacity)` in `SEICHAR.diff`. -/
def hplusScalar (p : SEICHARParams) (x : Vec) : ℚ :=
  max 0 (x 4 - p.hospital_capacity)

/-- `hminus = min(h, self.hospital_capacity)` in `SEICHAR.diff`. -/
def hminusScalar (p : SEICHARParams) (x : Vec) : ℚ :=
  min (x 4) p.hospital_capacity

/-- `cplus = max(0, c - self.icu_capacity)` in `SEICHAR.diff`. -/
def cplusScalar (p : SEICHARParams) (x : Vec) : ℚ :=
  max 0 (x 3 - p.icu_capacity)

/-- `cminus = min(c, self.icu_capacity)` in `SEICHAR.diff`. -/
def cminusScalar (p : SEICHARParams) (x : Vec) : ℚ :=
  min (x 3) p.icu_capacity

/-- The two assertions of `SEICHAR.diff`:
`assert hplus >= 0 and hminus >= 0 and cplus >= 0 and cminus >= 0` and
`assert np.all(x >= 0)`. -/
def seicharAssertOk (p : SEICHARParams) (x : Vec) : Bool :=
  (decide (0 ≤ hplusScalar p x) && decide (0 ≤ hminusScalar p x)
      && decide (0 ≤ cplusScalar p x) && decide (0 ≤ cminusScalar p x))
    && decide (∀ j, 0 ≤ x j)

/-- `SEICHAR.diff`: split the hospitalized / critical compartments against
the capacities, then delegate to `diff_seichar`. -/
def seicharDiff (p : SEICHARParams) (x : Vec) (t : ℚ) : Vec :=
  diff_seichar p (x 0) (x 1) (x 2) (cminusScalar p x) (cplusScalar p x)
    (hminusScalar p x) (hplusScalar p x) (x 5) (x 6) (x 7) t

/-- The probability-range assertions at the end of `SEICHAR.__init__`.
Exactly five probabilities are asserted; construction raises
`AssertionError` iff this is `false`. -/
def seicharProbAssertsOk (p : SEICHARParams) : Bool :=
  decide (0 ≤ p.prob_symptomatic ∧ p.prob_symptomatic ≤ 1)
    && decide (0 ≤ p.prob_hospitalization ∧ p.prob_hospitalization ≤ 1)
    && decide (0 ≤ p.prob_icu ∧ p.prob_icu ≤ 1)
    && decide (0 ≤ p.prob_no_hospitalization_fatality
                 ∧ p.prob_no_hospitalization_fatality ≤ 1)
    && decide (0 ≤ p.prob_no_icu_fatality ∧ p.prob_no_icu_fatality ≤ 1)

/-!  The generic `Model` framework of `covid/models/model.py`, specialised
to scalar (length-8) states, together with the SEICHAR overrides: the
non-negativity clamp of `SEICHAR.rk4_step`, the convergence closure of
`SEICHAR.get_convergence_function` and the watcher closure of
`SEICHAR.get_watcher_function`. -/

/-- The attributes of a `Model` consulted by `run` / `step` / `rk4_step`,
with `diff` the derivative method supplied by the subclass. -/
structure ModelCfg where
  diff : Vec → ℚ → Vec
  dt : ℚ
  steps_per_day : ℕ
  max_simulation_period : ℚ
  hospital_capacity : ℚ
  icu_capacity : ℚ

/-- The raw RK4 combination of `Model.rk4_step`:
`x + (k1 + 2*k2 + 2*k3 + k4)/6 * dt`. -/
def rk4Raw (cfg : ModelCfg) (x : Vec) (t dt : ℚ) : Vec :=
  let k1 := cfg.diff x t
  let k2 := cfg.diff (fun j => x j + 1/2 * dt * k1 j) (t + 1/2 * dt)
  let k3 := cfg.diff (fun j => x j + 1/2 * dt * k2 j) (t + 1/2 * dt)
  let k4 := cfg.diff (fun j => x j + 1 * dt * k3 j) (t + 1 * dt)
  fun j => x j + (k1 j + 2 * k2 j + 2 * k3 j + k4 j) / 6 * dt

/-- The state handed to the first derivative evaluation of a sub-step
(`k1 = self.diff(x, t)`). -/
def rk4_stage1 (cfg : ModelCfg) (x : Vec) (t dt : ℚ) : Vec := x

/-- The state handed to the second derivative evaluation
(`x + 0.5 * dt * k1`). -/
def rk4_stage2 (cfg : ModelCfg) (x : Vec) (t dt : ℚ) : Vec :=
  fun j => x j + 1/2 * dt * cfg.diff x t j

/-- The state handed to the third derivative evaluation
(`x + 0.5 * dt * k2`). -/
def rk4_stage3 (cfg : ModelCfg) (x : Vec) (t dt : ℚ) : Vec :=
  fun j => x j + 1/2 * dt *
    cfg.diff (rk4_stage2 cfg x t dt) (t + 1/2 * dt) j

/-- The state handed to the fourth derivative evaluation
(`x + 1.0 * dt * k3`). -/
def rk4_stage4 (cfg : ModelCfg) (x : Vec) (t dt : ℚ) : Vec :=
  fun j => x j + 1 * dt *
    cfg.diff (rk4_stage3 cfg x t dt) (t + 1/2 * dt) j

/-- `SEICHAR.rk4_step`: the raw RK4 result clamped component-wise by
`np.where(x_ > 0, x_, 0.0)`. -/
def rk4_step (cfg : ModelCfg) (x : Vec) (t dt : ℚ) : Vec :=
  fun j => if 0 < rk4Raw cfg x t dt j then rk4Raw cfg x t dt j else 0

/-- The mutable cell pair of `SEICHAR.get_watcher_function`
(`t_h`, `t_c`); `none` plays the role of `float("inf")`. -/
structure WatchSt where
  hospital_overflow_t : Option ℚ
  icu_overflow_t : Option ℚ

/-- `min(t_old, t)` where `none` stands for `float("inf")`. -/
def minOpt (o : Option ℚ) (t : ℚ) : ℚ :=
  match o with
  | none => t
  | some s => min s t

/-- One invocation of the watcher closure: in the scalar model
`h = x[HOSPITALIZED] = x 4` and `c = x[CRITICAL] = x 3`, and the overflow
times fire on `h >= self.hospital_capacity` (resp.
`c >= self.icu_capacity`). -/
def watchStep (cfg : ModelCfg) (w : WatchSt) (x : Vec) (t : ℚ) : WatchSt :=
  { hospital_overflow_t :=
      if cfg.hospital_capacity ≤ x 4 then some (minOpt w.hospital_overflow_t t)
      else w.hospital_overflow_t,
    icu_overflow_t :=
      if cfg.icu_capacity ≤ x 3 then some (minOpt w.icu_overflow_t t)
      else w.icu_overflow_t }

/-- The free-variable state of `SEICHAR.get_convergence_function`:
`N`, `x0` (both `None` before first use) and the `start` flag. -/
structure ConvSt where
  N : Option ℚ
  x0 : Option Vec
  start : Bool

/-- The initial closure state: `N = None`, `x0 = None`, `start = True`. -/
def convInit : ConvSt := ⟨none, none, true⟩

/-- `x.sum()` for a scalar state. -/
def sumVec (x : Vec) : ℚ := ∑ j, x j

/-- `np.abs(a - b).mean()` for scalar states (eight components). -/
def meanAbsDiff (a b : Vec) : ℚ := (∑ j, |a j - b j|) / 8

/-- One invocation of the convergence closure `fn(x, x_, t, dt)` of
`SEICHAR.get_convergence_function`, returning the updated closure state
and the returned boolean. -/
def convStep (c : ConvSt) (x x' : Vec) : ConvSt × Bool :=
  let N := match c.N with
    | none => sumVec x
    | some v => v
  if c.start then
    let x0 := match c.x0 with
      | none => x
      | some v => v
    if N * (1/1000) ≤ meanAbsDiff x' x0 then (⟨some N, some x0, false⟩, false)
    else (⟨some N, some x0, true⟩, false)
  else
    (⟨some N, c.x0, false⟩, decide (∀ j, |x' j - x j| < N * (1/1000000)))

/-- One day of integration (`Model.step`): `steps_per_day` clamped RK4
sub-steps of size `dt`, threading the watcher state and recording every
watched `(t, x)` pair (the watcher is invoked with the state at the start
of each sub-step). -/
def subSteps (cfg : ModelCfg) (dt : ℚ) :
    ℕ → Vec → ℚ → WatchSt → List (ℚ × Vec) →
      Vec × ℚ × WatchSt × List (ℚ × Vec)
  | 0, x, t, w, acc => (x, t, w, acc)
  | n + 1, x, t, w, acc =>
      subSteps cfg dt n (rk4_step cfg x t dt) (t + dt) (watchStep cfg w x t)
        (acc ++ [(t, x)])

/-- `Model.step`: sub-step size is `dt / steps_per_day`. -/
def dayStep (cfg : ModelCfg) (x : Vec) (t : ℚ) (w : WatchSt)
    (acc : List (ℚ × Vec)) : Vec × ℚ × WatchSt × List (ℚ × Vec) :=
  subSteps cfg (cfg.dt / (cfg.steps_per_day : ℚ)) cfg.steps_per_day x t w acc

/-- What `Model.run` has produced when its loop breaks: the recorded
states `xs` and times `ts`, the final state and time, the watcher cells
and the list of watched `(t, x)` sub-step pairs. -/
structure RunResult where
  xs : List Vec
  ts : List ℚ
  x : Vec
  t : ℚ
  watch : WatchSt
  watched : List (ℚ × Vec)

instance : Inhabited RunResult :=
  ⟨⟨[], [], fun _ => 0, 0, ⟨none, none⟩, []⟩⟩

/-- The `while True` loop of `Model.run`, fuelled.  `tf` is
`float("inf")` (`none`) when no duration was supplied, else `t0 + duration`;
`tmax` is `t0 + max_simulation_period`.  Mirroring the source, the
convergence callback is consulted (and its state advanced) only when no
duration was supplied, and — because `x = x_` is executed before the test —
it receives the new state in both of its state arguments. -/
def runLoop (cfg : ModelCfg) (C : Type) (convf : C → Vec → Vec → C × Bool)
    (tf : Option ℚ) (tmax : ℚ) :
    ℕ → Vec → ℚ → List Vec → List ℚ → C → WatchSt → List (ℚ × Vec) →
      Option RunResult
  | 0, _, _, _, _, _, _, _ => none
  | fuel + 1, x, t, xs, ts, c, w, acc =>
      let r := dayStep cfg x t w acc
      let x' := r.1
      let w' := r.2.2.1
      let acc' := r.2.2.2
      let t' := t + cfg.dt
      let xs' := xs ++ [x']
      let ts' := ts ++ [t']
      match tf with
      | none =>
          let cb := convf c x' x'
          if cb.2 = true ∨ tmax < t' then some ⟨xs', ts', x', t', w', acc'⟩
          else runLoop cfg C convf none tmax fuel x' t' xs' ts' cb.1 w' acc'
      | some tfv =>
          if tmax < t' ∨ tfv < t' then some ⟨xs', ts', x', t', w', acc'⟩
          else runLoop cfg C convf (some tfv) tmax fuel x' t' xs' ts' c w' acc'

/-- `Model.run`: initial recorded lists are `[state]` and `[time]`; the
watcher cells start at infinity. -/
def run (cfg : ModelCfg) (C : Type) (convf : C → Vec → Vec → C × Bool)
    (c0 : C) (duration : Option ℚ) (x0 : Vec) (t0 : ℚ) (fuel : ℕ) :
    Option RunResult :=
  runLoop cfg C convf (duration.map (fun d => t0 + d))
    (t0 + cfg.max_simulation_period) fuel x0 t0 [x0] [t0] c0 ⟨none, none⟩ []

/-- A fuel budget sufficient for the loop to reach one of its exits when
`0 < dt` (the loop adds `dt` to `t` every iteration and stops at the
latest when `t` exceeds `t0 + max_simulation_period`). -/
def sufficientFuel (cfg : ModelCfg) : ℕ :=
  Nat.floor (cfg.max_simulation_period / cfg.dt) + 2

/-- `int(t)` of `SEICHAR._run_post_process.advance`: Python `int()`
truncates toward zero. -/
def intTrunc (q : ℚ) : ℤ := q.num / (q.den : ℤ)

/-- `SEICHAR._run_post_process.advance` as a day offset from
`start_date`: `None` when the overflow time is still infinite, else the
truncated number of days. -/
def advanceDays (t : Option ℚ) : Option ℤ := t.map intTrunc

/-!  The stratified model `SEICHARDemographic` (the pieces the claims are
about): the proportional capacity split of `SEICHARDemographic.diff` and
the epsilon-guarded force of infection of `SEICHARDemographic.lambd`. -/

/-- `h.sum()` over the age groups. -/
def sumG {G : ℕ} (h : Fin G → ℚ) : ℚ := ∑ g, h g

/-- The within-capacity portion per age group in
`SEICHARDemographic.diff`:
`hminus = h / (h.sum() + 1e-50) * min(h.sum(), capacity)`. -/
def demSplitMinus {G : ℕ} (cap : ℚ) (h : Fin G → ℚ) : Fin G → ℚ :=
  fun g => h g / (sumG h + 1 / 10 ^ 50) * min (sumG h) cap

/-- The overflow portion per age group in `SEICHARDemographic.diff`:
`hplus = h / (h.sum() + 1e-50) * max(0, h.sum() - capacity)`. -/
def demSplitPlus {G : ℕ} (cap : ℚ) (h : Fin G → ℚ) : Fin G → ℚ :=
  fun g => h g / (sumG h + 1 / 10 ^ 50) * max 0 (sumG h - cap)

/-- `SEICHARDemographic.lambd`, branch `contact_matrix is None`:
well-mixed per group, denominator guarded by `tol = 1e-50`. -/
def demLambdWellMixed {G : ℕ} (p : SEICHARParams) (n i a : Fin G → ℚ)
    (t : ℚ) : Fin G → ℚ :=
  fun g => beta p t * (i g + p.rho * a g) / (n g + 1 / 10 ^ 50)

/-- `SEICHARDemographic.lambd`, branch `asymptomatic_contact_matrix is
None` with a contact matrix: `relative_contact_matrix * beta * fractions`
where `fractions = (i + rho * a) / (n + tol)` (numpy broadcasting: entry
`(g, h)` scales column `h` by `fractions h`). -/
def demLambdMatrix {G : ℕ} (R : Fin G → Fin G → ℚ) (p : SEICHARParams)
    (n i a : Fin G → ℚ) (t : ℚ) : Fin G → Fin G → ℚ :=
  fun g h => R g h * beta p t * ((i h + p.rho * a h) / (n h + 1 / 10 ^ 50))

/-- `SEICHARDemographic.lambd`, final branch (separate asymptomatic
matrix supplied for the symptomatic part is the same `R` here since the
code reuses `relative_contact_matrix` for both `beta_i` and `beta_a`):
`beta_i + rho * beta_a`. -/
def demLambdAsympt {G : ℕ} (R : Fin G → Fin G → ℚ) (p : SEICHARParams)
    (n i a : Fin G → ℚ) (t : ℚ) : Fin G → Fin G → ℚ :=
  fun g h => R g h * beta p t * i h / (n h + 1 / 10 ^ 50)
    + p.rho * (R g h * beta p t * a h / (n h + 1 / 10 ^ 50))

/-- Modelled from the spec: the epsilon-guarded force of infection the
specification prescribes for BOTH models ("the force of infection must be
computed with a small epsilon guard to avoid division by zero"), used to
compare against the scalar model's unguarded `SEICHAR.lambd`. -/
def lambdEpsilonGuarded (p : SEICHARParams) (n i a t : ℚ) : ℚ :=
  beta p t * (i + p.rho * a) / (n + 1 / 10 ^ 50)

/-- A SEICHAR instance as a `Model` configuration: `diff` is
`SEICHAR.diff`, `max_simulation_period = 5 * 365`. -/
def seicharCfg (p : SEICHARParams) (dt : ℚ) (steps : ℕ) : ModelCfg :=
  ⟨seicharDiff p, dt, steps, 5 * 365, p.hospital_capacity, p.icu_capacity⟩

/-!  Concrete instances used by witnesses and counterexamples. -/

/-- A simple concrete parameter set (all rates 1, probabilities 1/2 or 1,
vital dynamics off, zero import). -/
def pW : SEICHARParams :=
  { R0 := fun _ => 2, rho := 1/2, prob_symptomatic := 1/2, import_rate := 0,
    import_asymptomatic := true, sigma := 1, gamma_i := 1, gamma_a := 1,
    gamma_h := 1, gamma_c := 1, gamma_hr := 1, gamma_cr := 1,
    prob_hospitalization := 1/2, prob_icu := 1/2, prob_fatality := 1/2,
    prob_no_hospitalization_fatality := 1/2, prob_no_icu_fatality := 1,
    vital_dynamics := false, kappa := 0, mu := 0,
    hospital_capacity := 10, icu_capacity := 10 }

/-- `pW` with an out-of-range `prob_fatality`: every probability the
constructor actually asserts is in range, but `prob_fatality = 3/2`. -/
def pC6 : SEICHARParams := { pW with prob_fatality := 3/2 }

/-- Parameters with a large transmission rate (`beta = 10`), used to
drive an RK4 stage state negative. -/
def pC10 : SEICHARParams :=
  { R0 := fun _ => 10, rho := 0, prob_symptomatic := 1, import_rate := 0,
    import_asymptomatic := true, sigma := 1, gamma_i := 1, gamma_a := 1,
    gamma_h := 1, gamma_c := 1, gamma_hr := 1, gamma_cr := 1,
    prob_hospitalization := 0, prob_icu := 0, prob_fatality := 0,
    prob_no_hospitalization_fatality := 0, prob_no_icu_fatality := 0,
    vital_dynamics := false, kappa := 0, mu := 0,
    hospital_capacity := 100, icu_capacity := 100 }

/-- One susceptible and one infectious individual, all other
compartments empty. -/
def xC10 : Vec := ![1, 0, 1, 0, 0, 0, 0, 0]

/-- The empty state. -/
def zVec : Vec := fun _ => 0

/-- The state with one unit in every compartment. -/
def oneVec : Vec := fun _ => 1

/-- A derivative function that is identically zero (a legitimate
instance of the framework: `Model.diff` is supplied by the subclass). -/
def zeroDiff : Vec → ℚ → Vec := fun _ _ _ => 0

/-- A stateless convergence callback that never fires. -/
def convNever : Unit → Vec → Vec → Unit × Bool := fun c _ _ => (c, false)

/-- A stateless convergence callback that always fires. -/
def convAlways : Unit → Vec → Vec → Unit × Bool := fun c _ _ => (c, true)

/-- A minimal concrete model configuration: zero derivative, `dt = 1`,
one sub-step per day, default maximum period, both capacities 1. -/
def cfgTriv : ModelCfg := ⟨zeroDiff, 1, 1, 5 * 365, 1, 1⟩

/-- The result of running `cfgTriv` from the empty state for duration 0. -/
def resTriv : RunResult := ⟨[zVec, zVec], [0, 1], zVec, 1, ⟨none, none⟩, [(0, zVec)]⟩

/-- The result of running `cfgTriv` from `oneVec` for duration 1: the
hospitalized total equals the capacity at every sub-step, so the watcher
fires (at `h >= capacity`) although demand never strictly exceeds it. -/
def resC8 : RunResult :=
  ⟨[oneVec, oneVec, oneVec], [0, 1, 2], oneVec, 2, ⟨some 0, some 0⟩,
    [(0, oneVec), (1, oneVec)]⟩

/-- One watcher update, as a fold step over the watched `(t, x)` pairs:
the overflow cell fires when the monitored component reaches the
capacity. -/
def fireStep (cap : ℚ) (idx : Fin 8) (o : Option ℚ) (pr : ℚ × Vec) : Option ℚ :=
  if cap ≤ pr.2 idx then some (minOpt o pr.1) else o

/-- The overflow cell obtained by folding the watcher over a list of
watched pairs starting from infinity. -/
def firedMin (cap : ℚ) (idx : Fin 8) (l : List (ℚ × Vec)) : Option ℚ :=
  l.foldl (fireStep cap idx) none

/-!  Helper lemmas. -/

/-- The fatalities component of the scalar derivative is `diff_f` of the
split quantities. -/
lemma seicharDiff_apply_f (p : SEICHARParams) (x : Vec) (t : ℚ) :
    seicharDiff p x t 7
      = diff_f p (hplusScalar p x) (cminusScalar p x) (cplusScalar p x) t := rfl

/-- If every derivative evaluation sums to zero, the raw RK4 combination
preserves the component sum. -/
lemma sumVec_rk4Raw (cfg : ModelCfg) (x : Vec) (t dt : ℚ)
    (hd : ∀ y s, sumVec (cfg.diff y s) = 0) :
    sumVec (rk4Raw cfg x t dt) = sumVec x := by
  have key : ∀ k1 k2 k3 k4 : Vec, (∑ j, k1 j) = 0 → (∑ j, k2 j) = 0 →
      (∑ j, k3 j) = 0 → (∑ j, k4 j) = 0 →
      (∑ j, (k1 j + 2 * k2 j + 2 * k3 j + k4 j) / 6 * dt) = 0 := by
    intro k1 k2 k3 k4 h1 h2 h3 h4
    have hsum : (∑ j, (k1 j + 2 * k2 j + 2 * k3 j + k4 j)) = 0 := by
      simp [Finset.sum_add_distrib, ← Finset.mul_sum, h1, h2, h3, h4]
    rw [← Finset.sum_mul, ← Finset.sum_div, hsum, zero_div, zero_mul]
  have hd' : ∀ y s, (∑ j, cfg.diff y s j) = 0 := hd
  simp only [rk4Raw, sumVec]
  rw [Finset.sum_add_distrib, key _ _ _ _ (hd' _ _) (hd' _ _) (hd' _ _) (hd' _ _),
    add_zero]

/-- C1.  With vital dynamics disabled and a zero import rate the eight
components of `SEICHAR.diff_seichar` always sum to zero; hence the
component sum of `SEICHAR.diff` is zero at every state and time, and any
RK4 sub-step in which the non-negativity clamp leaves the raw RK4 result
unchanged conserves the sum of all compartments. -/
theorem c1_conservation (p : SEICHARParams) (hvd : p.vital_dynamics = false)
    (him : p.import_rate = 0) :
    (∀ s e i cminus cplus hminus hplus a r f t,
        sumVec (diff_seichar p s e i cminus cplus hminus hplus a r f t) = 0)
    ∧ (∀ x t, sumVec (seicharDiff p x t) = 0)
    ∧ (∀ dt steps x t dt',
        rk4_step (seicharCfg p dt steps) x t dt'
            = rk4Raw (seicharCfg p dt steps) x t dt' →
          sumVec (rk4_step (seicharCfg p dt steps) x t dt') = sumVec x) := by
  have h1 : ∀ s e i cminus cplus hminus hplus a r f t,
      sumVec (diff_seichar p s e i cminus cplus hminus hplus a r f t) = 0 := by
    intro s e i cminus cplus hminus hplus a r f t
    simp only [sumVec, diff_seichar]
    rw [Fin.sum_univ_eight]
    show diff_s p s (s + e + i + cminus + cplus + hminus + hplus + a + r)
        (lambd p (s + e + i + cminus + cplus + hminus + hplus + a + r) i a t) t
      + diff_e p s e
          (lambd p (s + e + i + cminus + cplus + hminus + hplus + a + r) i a t) t
      + diff_i p e i t
      + diff_c p (hminus + hplus) cminus cplus t
      + diff_h p i hminus hplus cminus t
      + diff_a p e a t
      + diff_r p a i hminus hplus cminus cplus r t
      + diff_f p hplus cminus cplus t = 0
    simp only [diff_s, diff_e, diff_i, diff_c, diff_h, diff_a, diff_r, diff_f,
      muEff, asympt_import_rate, hvd, him, if_false, Bool.false_eq_true,
      zero_div, ite_self]
    ring
  have h2 : ∀ x t, sumVec (seicharDiff p x t) = 0 := by
    intro x t
    exact h1 (x 0) (x 1) (x 2) (cminusScalar p x) (cplusScalar p x)
      (hminusScalar p x) (hplusScalar p x) (x 5) (x 6) (x 7) t
  refine ⟨h1, h2, ?_⟩
  intro dt steps x t dt' hclamp
  rw [hclamp]
  exact sumVec_rk4Raw _ _ _ _ (fun y s => h2 y s)

/-- C1 witness: conservation of the derivative sum at a concrete state. -/
theorem c1_conservation_wit :
    sumVec (seicharDiff pW (fun _ => 1) 0) = 0 :=
  (c1_conservation pW rfl rfl).2.1 (fun _ => 1) 0

/-- C2 counterexample: with two age groups each holding one hospitalized
patient and capacity one, the overflow assigned to group 0 by
`SEICHARDemographic.diff` is `1 / (2 + 10⁻⁵⁰)`, not the claimed exact
share `(H_g / H_total) · H_over = 1/2`. -/
theorem c2_counterexample :
    demSplitPlus (G := 2) 1 (fun _ => 1) 0
      ≠ ((1 : ℚ) / (1 + 1)) * max 0 ((1 + 1) - 1) := by
  norm_num [demSplitPlus, sumG, Fin.sum_univ_two]

/-- C2 amended.  The scalar model splits the hospitalized and critical
compartments as `H_within = min(H, capacity)`, `H_over = max(0, H -
capacity)`; the stratified model gives age group `g` the share
`H_g / (H_total + 10⁻⁵⁰)` (not `H_g / H_total`) of both the aggregate
overflow and the within-capacity portion, which still preserves the
within-group ratios. -/
theorem c2_capacity_split (G : ℕ) (cap : ℚ) (h : Fin G → ℚ) (g : Fin G) :
    (demSplitMinus cap h g
        = h g / (sumG h + 1 / 10 ^ 50) * min (sumG h) cap)
    ∧ (demSplitPlus cap h g
        = h g / (sumG h + 1 / 10 ^ 50) * max 0 (sumG h - cap))
    ∧ (∀ g', demSplitPlus cap h g * h g' = demSplitPlus cap h g' * h g)
    ∧ (∀ g', demSplitMinus cap h g * h g' = demSplitMinus cap h g' * h g)
    ∧ (∀ (p : SEICHARParams) (x : Vec),
        hminusScalar p x = min (x 4) p.hospital_capacity
        ∧ hplusScalar p x = max 0 (x 4 - p.hospital_capacity)
        ∧ cminusScalar p x = min (x 3) p.icu_capacity
        ∧ cplusScalar p x = max 0 (x 3 - p.icu_capacity)) := by
  refine ⟨rfl, rfl, ?_, ?_, fun p x => ⟨rfl, rfl, rfl, rfl⟩⟩
  · intro g'
    simp only [demSplitPlus]
    ring
  · intro g'
    simp only [demSplitMinus]
    ring

/-- C6 counterexample: a parameter set whose five asserted probabilities
are all in `[0,1]` but whose `prob_fatality` is `3/2` passes the
constructor's probability assertions, although the claim requires
construction to fail. -/
theorem c6_counterexample :
    seicharProbAssertsOk pC6 = true ∧ ¬ pC6.prob_fatality ≤ 1 := by
  constructor
  · simp only [seicharProbAssertsOk, pC6, pW, Bool.and_eq_true, decide_eq_true_eq]
    norm_num
  · simp only [pC6, pW]
    norm_num

/-- C6 amended.  Construction fails with an `AssertionError` exactly when
one of the five asserted probabilities (`prob_symptomatic`,
`prob_hospitalization`, `prob_icu`, `prob_no_hospitalization_fatality`,
`prob_no_icu_fatality`) lies outside `[0,1]`; `prob_fatality` is not
validated at all (the assertions are insensitive to it). -/
theorem c6_probability_validation :
    (∀ p : SEICHARParams,
        seicharProbAssertsOk p = true ↔
          ((0 ≤ p.prob_symptomatic ∧ p.prob_symptomatic ≤ 1)
            ∧ (0 ≤ p.prob_hospitalization ∧ p.prob_hospitalization ≤ 1)
            ∧ (0 ≤ p.prob_icu ∧ p.prob_icu ≤ 1)
            ∧ (0 ≤ p.prob_no_hospitalization_fatality
                ∧ p.prob_no_hospitalization_fatality ≤ 1)
            ∧ (0 ≤ p.prob_no_icu_fatality ∧ p.prob_no_icu_fatality ≤ 1)))
    ∧ (∀ (p : SEICHARParams) (q : ℚ),
        seicharProbAssertsOk { p with prob_fatality := q }
          = seicharProbAssertsOk p) := by
  constructor
  · intro p
    simp [seicharProbAssertsOk, Bool.and_eq_true, decide_eq_true_iff, and_assoc]
  · intro p q
    rfl

/-- C7 counterexample: at live population `n = 0` with one infectious
individual, the scalar `SEICHAR.lambd` (which divides by `n` with no
guard — in the source a division by zero) does not equal the
epsilon-guarded force of infection the claim prescribes. -/
theorem c7_counterexample :
    lambd pW 0 1 0 0 ≠ lambdEpsilonGuarded pW 0 1 0 0 := by
  simp only [lambd, lambdEpsilonGuarded, beta, muEff, pW]
  norm_num

/-- C7 amended.  Only the stratified model guards the force-of-infection
denominator: every branch of `SEICHARDemographic.lambd` divides by
`n + 10⁻⁵⁰`, which is nonzero whenever `n ≥ 0`, so the stratified
computation is total; the scalar `SEICHAR.lambd` divides by `n` itself
with no epsilon guard. -/
theorem c7_epsilon_guard :
    (∀ (G : ℕ) (p : SEICHARParams) (n i a : Fin G → ℚ) (t : ℚ) (g : Fin G),
        0 ≤ n g →
          n g + 1 / 10 ^ 50 ≠ 0
          ∧ demLambdWellMixed p n i a t g * (n g + 1 / 10 ^ 50)
              = beta p t * (i g + p.rho * a g))
    ∧ (∀ (G : ℕ) (R : Fin G → Fin G → ℚ) (p : SEICHARParams)
        (n i a : Fin G → ℚ) (t : ℚ) (g h : Fin G),
        0 ≤ n h →
          demLambdMatrix R p n i a t g h * (n h + 1 / 10 ^ 50)
            = R g h * beta p t * (i h + p.rho * a h))
    ∧ (∀ (G : ℕ) (R : Fin G → Fin G → ℚ) (p : SEICHARParams)
        (n i a : Fin G → ℚ) (t : ℚ) (g h : Fin G),
        0 ≤ n h →
          demLambdAsympt R p n i a t g h * (n h + 1 / 10 ^ 50)
            = R g h * beta p t * (i h + p.rho * a h))
    ∧ (∀ (p : SEICHARParams) (n i a t : ℚ),
        lambd p n i a t = beta p t * (i + p.rho * a) / n) := by
  have hpos : ∀ q : ℚ, 0 ≤ q → q + 1 / 10 ^ 50 ≠ 0 := by
    intro q hq
    have : (0 : ℚ) < q + 1 / 10 ^ 50 :=
      add_pos_of_nonneg_of_pos hq (by norm_num)
    exact ne_of_gt this
  refine ⟨?_, ?_, ?_, fun p n i a t => rfl⟩
  · intro G p n i a t g hg
    refine ⟨hpos _ hg, ?_⟩
    rw [demLambdWellMixed, div_mul_cancel₀ _ (hpos _ hg)]
  · intro G R p n i a t g h hh
    rw [demLambdMatrix, mul_assoc, div_mul_cancel₀ _ (hpos _ hh), mul_assoc]
  · intro G R p n i a t g h hh
    have hne := hpos _ hh
    rw [demLambdAsympt]
    field_simp
    ring

/-- C7 witness: the guarded stratified force of infection at a concrete
one-group state with live population 1. -/
theorem c7_epsilon_guard_wit :
    (1 : ℚ) + 1 / 10 ^ 50 ≠ 0
    ∧ demLambdWellMixed (G := 1) pW (fun _ => 1) (fun _ => 1) (fun _ => 1) 0 0
        * ((1 : ℚ) + 1 / 10 ^ 50) = beta pW 0 * (1 + pW.rho * 1) :=
  c7_epsilon_guard.1 1 pW (fun _ => 1) (fun _ => 1) (fun _ => 1) 0 0
    (by norm_num)

/-!  Evaluation lemmas for the concrete C10 instance. -/

/-- Component values of `xC10`. -/
lemma xC10_apply :
    xC10 0 = 1 ∧ xC10 1 = 0 ∧ xC10 2 = 1 ∧ xC10 3 = 0 ∧ xC10 4 = 0
      ∧ xC10 5 = 0 ∧ xC10 6 = 0 ∧ xC10 7 = 0 :=
  ⟨rfl, rfl, rfl, rfl, rfl, rfl, rfl, rfl⟩

/-- `xC10` is a non-negative state. -/
lemma xC10_nonneg : ∀ j, 0 ≤ xC10 j := by
  intro j
  fin_cases j <;> first | exact le_refl _ | exact zero_le_one

/-- With `beta = 10`, `dt = 1` and one susceptible plus one infectious
individual, the susceptible component of the second RK4 stage state is
`1 + (1/2)·1·(-5) = -3/2`. -/
lemma stage2_eval_pC10 :
    rk4_stage2 (seicharCfg pC10 1 1) xC10 0 1 0 = -(3/2) := by
  simp only [rk4_stage2, seicharCfg, seicharDiff, diff_seichar,
    hplusScalar, hminusScalar, cplusScalar, cminusScalar, diff_s, lambd, beta,
    muEff, pC10, Matrix.cons_val_zero, xC10_apply.1, xC10_apply.2.1,
    xC10_apply.2.2.1, xC10_apply.2.2.2.1, xC10_apply.2.2.2.2.1,
    xC10_apply.2.2.2.2.2.1, xC10_apply.2.2.2.2.2.2.1,
    xC10_apply.2.2.2.2.2.2.2]
  norm_num

/-- C10 counterexample: starting from the non-negative state `xC10` with
step size `dt = 1 > 0`, the second stage evaluation of
`Model.rk4_step` receives a state whose susceptible component is
negative, so `SEICHAR.diff` does not always receive a non-negative state
inside a sub-step that starts from a valid state. -/
theorem c10_counterexample :
    (0 ≤ xC10 0 ∧ 0 ≤ xC10 1 ∧ 0 ≤ xC10 2 ∧ 0 ≤ xC10 3 ∧ 0 ≤ xC10 4
        ∧ 0 ≤ xC10 5 ∧ 0 ≤ xC10 6 ∧ 0 ≤ xC10 7)
      ∧ (0 : ℚ) < 1
      ∧ rk4_stage2 (seicharCfg pC10 1 1) xC10 0 1 0 < 0 := by
  refine ⟨⟨xC10_nonneg 0, xC10_nonneg 1, xC10_nonneg 2, xC10_nonneg 3,
      xC10_nonneg 4, xC10_nonneg 5, xC10_nonneg 6, xC10_nonneg 7⟩,
    by norm_num, ?_⟩
  rw [stage2_eval_pC10]
  norm_num

/-- C10 amended.  Only the first RK4 stage evaluation is guaranteed a
non-negative state: it receives the input state itself, which satisfies
both assertions of `SEICHAR.diff` whenever the state and the capacities
are non-negative; the later stage states `x + 0.5·dt·k1`, … can contain
negative components even when the sub-step starts from a non-negative
state and `dt > 0`, so the non-negativity assertion inside the scalar
`diff` can fail there. -/
theorem c10_stage_states (cfg : ModelCfg) (x : Vec) (t dt : ℚ) :
    rk4_stage1 cfg x t dt = x
    ∧ (∀ (p : SEICHARParams) (y : Vec), (∀ j, 0 ≤ y j) →
        0 ≤ p.hospital_capacity → 0 ≤ p.icu_capacity →
          seicharAssertOk p y = true)
    ∧ seicharAssertOk pC10 (rk4_stage2 (seicharCfg pC10 1 1) xC10 0 1)
        = false := by
  refine ⟨rfl, ?_, ?_⟩
  · intro p y hy hch hci
    simp only [seicharAssertOk, Bool.and_eq_true, decide_eq_true_eq,
      hplusScalar, hminusScalar, cplusScalar, cminusScalar]
    exact ⟨⟨⟨⟨le_max_left 0 _, le_min (hy 4) hch⟩, le_max_left 0 _⟩,
      le_min (hy 3) hci⟩, hy⟩
  · have hnot : ¬ (∀ j, 0 ≤ rk4_stage2 (seicharCfg pC10 1 1) xC10 0 1 j) := by
      intro hall
      have h0 := hall 0
      rw [stage2_eval_pC10] at h0
      norm_num at h0
    unfold seicharAssertOk
    rw [decide_eq_false hnot, Bool.and_false]

/-- C10 witness: the first stage state is the input state, and the input
state `xC10` itself passes the assertions of `SEICHAR.diff`. -/
theorem c10_stage_states_wit :
    rk4_stage1 (seicharCfg pC10 1 1) xC10 0 1 = xC10
    ∧ seicharAssertOk pC10 xC10 = true :=
  ⟨(c10_stage_states (seicharCfg pC10 1 1) xC10 0 1).1,
    (c10_stage_states (seicharCfg pC10 1 1) xC10 0 1).2.1 pC10 xC10 xC10_nonneg
      (by norm_num [pC10]) (by norm_num [pC10])⟩


/-- C5.  The convergence closure built by
`SEICHAR.get_convergence_function`: on its first call it fixes `N` as the
sum of the first state it observes (and `N` is preserved thereafter);
while waiting for onset it returns `False` — in particular on every call
in which the state has moved (in mean absolute difference) less than
`10⁻³·N` from the initial point, where it also stays in the waiting
phase; once the waiting phase is over it returns `True` exactly when the
two states it is passed differ by less than `10⁻⁶·N` in every
compartment. -/
theorem c5_convergence (c : ConvSt) (x x' : Vec) :
    ((convStep convInit x x').1.N = some (sumVec x))
    ∧ (∀ N0, c.N = some N0 → (convStep c x x').1.N = some N0)
    ∧ (∀ N0 x0, c.N = some N0 → c.x0 = some x0 → c.start = true →
        meanAbsDiff x' x0 < N0 * (1/1000) →
          (convStep c x x').2 = false ∧ (convStep c x x').1.start = true)
    ∧ (c.start = true → (convStep c x x').2 = false)
    ∧ (∀ N0, c.start = false → c.N = some N0 →
        ((convStep c x x').2 = true ↔
          ∀ j, |x' j - x j| < N0 * (1/1000000))) := by
  refine ⟨?_, ?_, ?_, ?_, ?_⟩
  · simp only [convStep, convInit]
    split <;> first | rfl | (split <;> rfl)
  · intro N0 hN
    simp only [convStep, hN]
    split
    · split <;> rfl
    · rfl
  · intro N0 x0 hN hx0 hst hlt
    simp only [convStep, hN, hx0, hst, if_true]
    rw [if_neg (not_le.mpr hlt)]
    exact ⟨rfl, rfl⟩
  · intro hst
    simp only [convStep, hst, if_true]
    split <;> rfl
  · intro N0 hst hN
    simp only [convStep, hN, hst, Bool.false_eq_true, if_false,
      decide_eq_true_eq]

/-- C5 witness: concrete invocations of the convergence closure in each
phase. -/
theorem c5_convergence_wit :
    ((convStep ⟨some 5, none, true⟩ zVec zVec).1.N = some 5)
    ∧ ((convStep ⟨some 8, some zVec, true⟩ zVec zVec).2 = false
        ∧ (convStep ⟨some 8, some zVec, true⟩ zVec zVec).1.start = true)
    ∧ ((convStep ⟨none, none, true⟩ oneVec zVec).2 = false)
    ∧ ((convStep ⟨some 8, none, false⟩ zVec zVec).2 = true) := by
  refine ⟨(c5_convergence ⟨some 5, none, true⟩ zVec zVec).2.1 5 rfl, ?_,
    (c5_convergence ⟨none, none, true⟩ oneVec zVec).2.2.2.1 rfl, ?_⟩
  · refine (c5_convergence ⟨some 8, some zVec, true⟩ zVec zVec).2.2.1 8 zVec
      rfl rfl rfl ?_
    simp only [meanAbsDiff, zVec, sub_self, abs_zero, Finset.sum_const_zero]
    norm_num
  · refine ((c5_convergence ⟨some 8, none, false⟩ zVec zVec).2.2.2.2 8 rfl
      rfl).mpr ?_
    intro j
    simp only [zVec, sub_self, abs_zero]
    norm_num

/-!  Non-negativity through the integrator (C3). -/

/-- The clamped RK4 sub-step is component-wise non-negative. -/
lemma rk4_step_nonneg (cfg : ModelCfg) (x : Vec) (t dt : ℚ) (j : Fin 8) :
    0 ≤ rk4_step cfg x t dt j := by
  simp only [rk4_step]
  split
  · exact le_of_lt ‹_›
  · exact le_refl 0

/-- The state produced by a day of sub-steps is non-negative when the
starting state is (with at least one sub-step the clamp alone gives it). -/
lemma subSteps_x_nonneg (cfg : ModelCfg) (dt : ℚ) :
    ∀ (n : ℕ) (x : Vec) (t : ℚ) (w : WatchSt) (acc : List (ℚ × Vec)),
      (∀ j, 0 ≤ x j) → ∀ j, 0 ≤ (subSteps cfg dt n x t w acc).1 j := by
  intro n
  induction n with
  | zero => intro x t w acc hx j; exact hx j
  | succ n ih =>
      intro x t w acc hx j
      exact ih (rk4_step cfg x t dt) (t + dt) (watchStep cfg w x t)
        (acc ++ [(t, x)]) (fun j' => rk4_step_nonneg cfg x t dt j') j

/-- Loop invariant: every recorded state of `Model.run` is non-negative
when the current state and all previously recorded states are. -/
lemma runLoop_xs_nonneg (cfg : ModelCfg) (C : Type)
    (convf : C → Vec → Vec → C × Bool) (tf : Option ℚ) (tmax : ℚ) :
    ∀ (fuel : ℕ) (x : Vec) (t : ℚ) (xs : List Vec) (ts : List ℚ) (c : C)
      (w : WatchSt) (acc : List (ℚ × Vec)) (res : RunResult),
      runLoop cfg C convf tf tmax fuel x t xs ts c w acc = some res →
      (∀ j, 0 ≤ x j) → (∀ v ∈ xs, ∀ j, 0 ≤ v j) →
      ∀ v ∈ res.xs, ∀ j, 0 ≤ v j := by
  intro fuel
  induction fuel with
  | zero =>
      intro x t xs ts c w acc res h
      exact absurd h (by simp [runLoop])
  | succ fuel ih =>
      intro x t xs ts c w acc res h hx hxs
      have hx' : ∀ j, 0 ≤ (dayStep cfg x t w acc).1 j :=
        subSteps_x_nonneg cfg _ cfg.steps_per_day x t w acc hx
      have hxs' : ∀ v ∈ xs ++ [(dayStep cfg x t w acc).1], ∀ j, 0 ≤ v j := by
        intro v hv
        rcases List.mem_append.mp hv with h1 | h2
        · exact hxs v h1
        · rw [List.mem_singleton] at h2
          subst h2
          exact hx'
      cases tf with
      | none =>
          simp only [runLoop] at h
          split at h
          · injection h with h
            subst h
            exact hxs'
          · exact ih _ _ _ _ _ _ _ _ h hx' hxs'
      | some tfv =>
          simp only [runLoop] at h
          split at h
          · injection h with h
            subst h
            exact hxs'
          · exact ih _ _ _ _ _ _ _ _ h hx' hxs'

/-- C3.  `SEICHAR.rk4_step` always returns a component-wise non-negative
vector, and consequently every state recorded in the time series of
`Model.run` (started from a non-negative initial state) is non-negative
in every compartment. -/
theorem c3_nonneg :
    (∀ (cfg : ModelCfg) (x : Vec) (t dt : ℚ) (j : Fin 8),
        0 ≤ rk4_step cfg x t dt j)
    ∧ (∀ (cfg : ModelCfg) (C : Type) (convf : C → Vec → Vec → C × Bool)
        (c0 : C) (dur : Option ℚ) (x0 : Vec) (t0 : ℚ) (fuel : ℕ)
        (res : RunResult),
        run cfg C convf c0 dur x0 t0 fuel = some res →
        (∀ j, 0 ≤ x0 j) →
        ∀ v ∈ res.xs, ∀ j, 0 ≤ v j) := by
  refine ⟨rk4_step_nonneg, ?_⟩
  intro cfg C convf c0 dur x0 t0 fuel res h hx0
  refine runLoop_xs_nonneg cfg C convf _ _ fuel x0 t0 [x0] [t0] c0 _ [] res
    h hx0 ?_
  intro v hv
  rw [List.mem_singleton] at hv
  subst hv
  exact hx0

/-- `SEICHAR.rk4_step` as an unapplied function, for rewriting partial
applications. -/
lemma rk4_step_eq_fun (cfg : ModelCfg) (x : Vec) (t dt : ℚ) :
    rk4_step cfg x t dt
      = fun j => if 0 < rk4Raw cfg x t dt j then rk4Raw cfg x t dt j else 0 :=
  rfl

/-- Evaluation of a one-iteration run of the trivial model (duration 0,
so the loop breaks after its first day step). -/
lemma run_cfgTriv_eval :
    run cfgTriv Unit convNever () (some 0) zVec 0 3 = some resTriv := by
  norm_num [run, runLoop, dayStep, subSteps, rk4_step_eq_fun, rk4Raw,
    watchStep, minOpt, cfgTriv, zeroDiff, zVec, convNever, resTriv, Option.map]
  rfl

/-- C3 witness: the clamp at a concrete input, and a recorded state of a
concrete run. -/
theorem c3_nonneg_wit :
    0 ≤ rk4_step cfgTriv zVec 0 1 5 ∧ 0 ≤ zVec 3 :=
  ⟨c3_nonneg.1 cfgTriv zVec 0 1 5,
    c3_nonneg.2 cfgTriv Unit convNever () (some 0) zVec 0 3 resTriv
      run_cfgTriv_eval (fun _ => le_refl 0) zVec (by simp [resTriv]) 3⟩

/-!  Termination and exit conditions of the run loop (C4). -/

/-- The loop yields a result once `t` would exceed `tmax`, which happens
within any fuel budget `fuel + 1` satisfying
`tmax < t + (fuel + 1) * dt`. -/
lemma runLoop_isSome (cfg : ModelCfg) (C : Type)
    (convf : C → Vec → Vec → C × Bool) (tf : Option ℚ) (tmax : ℚ) :
    ∀ (fuel : ℕ) (x : Vec) (t : ℚ) (xs : List Vec) (ts : List ℚ) (c : C)
      (w : WatchSt) (acc : List (ℚ × Vec)),
      tmax < t + ((fuel : ℚ) + 1) * cfg.dt →
      (runLoop cfg C convf tf tmax (fuel + 1) x t xs ts c w acc).isSome
        = true := by
  intro fuel
  induction fuel with
  | zero =>
      intro x t xs ts c w acc hlt
      have hlt' : tmax < t + cfg.dt := by
        push_cast at hlt
        linarith
      cases tf with
      | none =>
          simp only [runLoop]
          rw [if_pos (Or.inr hlt')]
          rfl
      | some tfv =>
          simp only [runLoop]
          rw [if_pos (Or.inl hlt')]
          rfl
  | succ fuel ih =>
      intro x t xs ts c w acc hlt
      have hnext : tmax < (t + cfg.dt) + ((fuel : ℚ) + 1) * cfg.dt := by
        push_cast at hlt ⊢
        linarith
      cases tf with
      | none =>
          rw [runLoop]
          split
          · rfl
          · exact ih _ _ _ _ _ _ _ hnext
      | some tfv =>
          rw [runLoop]
          split
          · rfl
          · exact ih _ _ _ _ _ _ _ hnext

/-- With an explicit duration the loop stops at the first recorded time
strictly past `min tf tmax`. -/
lemma runLoop_dur_bounds (cfg : ModelCfg) (C : Type)
    (convf : C → Vec → Vec → C × Bool) (tfv tmax : ℚ) :
    ∀ (fuel : ℕ) (x : Vec) (t : ℚ) (xs : List Vec) (ts : List ℚ) (c : C)
      (w : WatchSt) (acc : List (ℚ × Vec)) (res : RunResult),
      runLoop cfg C convf (some tfv) tmax fuel x t xs ts c w acc = some res →
      t ≤ min tfv tmax →
      min tfv tmax < res.t ∧ res.t ≤ min tfv tmax + cfg.dt := by
  intro fuel
  induction fuel with
  | zero =>
      intro x t xs ts c w acc res h
      exact absurd h (by simp [runLoop])
  | succ fuel ih =>
      intro x t xs ts c w acc res h ht
      rw [runLoop] at h
      split at h
      · rename_i hcond
        injection h with h
        subst h
        constructor
        · show min tfv tmax < t + cfg.dt
          rcases hcond with h1 | h2
          · exact min_lt_iff.mpr (Or.inr h1)
          · exact min_lt_iff.mpr (Or.inl h2)
        · show t + cfg.dt ≤ min tfv tmax + cfg.dt
          exact add_le_add_right ht _
      · rename_i hcond
        push_neg at hcond
        exact ih _ _ _ _ _ _ _ _ h (le_min hcond.2 hcond.1)

/-- With an explicit duration the loop never consults the convergence
callback: the result is independent of it (even of its state type). -/
lemma runLoop_conv_irrelevant (cfg : ModelCfg) (C1 C2 : Type)
    (convf1 : C1 → Vec → Vec → C1 × Bool)
    (convf2 : C2 → Vec → Vec → C2 × Bool) (tfv tmax : ℚ) :
    ∀ (fuel : ℕ) (x : Vec) (t : ℚ) (xs : List Vec) (ts : List ℚ)
      (c1 : C1) (c2 : C2) (w : WatchSt) (acc : List (ℚ × Vec)),
      runLoop cfg C1 convf1 (some tfv) tmax fuel x t xs ts c1 w acc
        = runLoop cfg C2 convf2 (some tfv) tmax fuel x t xs ts c2 w acc := by
  intro fuel
  induction fuel with
  | zero => intro x t xs ts c1 c2 w acc; rfl
  | succ fuel ih =>
      intro x t xs ts c1 c2 w acc
      rw [runLoop]
      conv_rhs => rw [runLoop]
      split
      · rfl
      · exact ih _ _ _ _ _ _ _ _

/-- Without a duration and with a convergence callback that never fires,
the loop exits only by exceeding `tmax`. -/
lemma runLoop_none_exit_tmax (cfg : ModelCfg) (C : Type)
    (convf : C → Vec → Vec → C × Bool) (tmax : ℚ)
    (hcf : ∀ (c : C) (x y : Vec), (convf c x y).2 = false) :
    ∀ (fuel : ℕ) (x : Vec) (t : ℚ) (xs : List Vec) (ts : List ℚ) (c : C)
      (w : WatchSt) (acc : List (ℚ × Vec)) (res : RunResult),
      runLoop cfg C convf none tmax fuel x t xs ts c w acc = some res →
      tmax < res.t := by
  intro fuel
  induction fuel with
  | zero =>
      intro x t xs ts c w acc res h
      exact absurd h (by simp [runLoop])
  | succ fuel ih =>
      intro x t xs ts c w acc res h
      rw [runLoop] at h
      simp only [hcf, Bool.false_eq_true, false_or] at h
      split at h
      · rename_i hcond
        injection h with h
        subst h
        exact hcond
      · exact ih _ _ _ _ _ _ _ _ h

/-- Without a duration and with a convergence callback that always
fires, the loop exits right after its first day step. -/
lemma runLoop_none_exit_conv (cfg : ModelCfg) (C : Type)
    (convf : C → Vec → Vec → C × Bool) (tmax : ℚ)
    (hcf : ∀ (c : C) (x y : Vec), (convf c x y).2 = true) :
    ∀ (fuel : ℕ) (x : Vec) (t : ℚ) (xs : List Vec) (ts : List ℚ) (c : C)
      (w : WatchSt) (acc : List (ℚ × Vec)) (res : RunResult),
      runLoop cfg C convf none tmax fuel x t xs ts c w acc = some res →
      res.t = t + cfg.dt := by
  intro fuel
  cases fuel with
  | zero =>
      intro x t xs ts c w acc res h
      exact absurd h (by simp [runLoop])
  | succ fuel =>
      intro x t xs ts c w acc res h
      rw [runLoop] at h
      simp only [hcf, true_or, if_true] at h
      injection h with h
      subst h
      rfl

/-- C4 amended.  The loop terminates for every `dt > 0` (a fuel budget of
`⌊max_simulation_period / dt⌋ + 2` iterations always reaches an exit);
with an explicit duration it runs until the first time
`t > min(t0 + duration, t0 + max_simulation_period)` and the convergence
callback is never consulted (the result is independent of it); without a
duration it exits through the convergence callback (fed the new state in
both arguments) or, if that never fires, exactly when
`t` first exceeds `t0 + max_simulation_period`. -/
theorem c4_run_termination_and_exits :
    (∀ (cfg : ModelCfg) (C : Type) (convf : C → Vec → Vec → C × Bool)
        (c0 : C) (dur : Option ℚ) (x0 : Vec) (t0 : ℚ), 0 < cfg.dt →
        (run cfg C convf c0 dur x0 t0 (sufficientFuel cfg)).isSome = true)
    ∧ (∀ (cfg : ModelCfg) (C1 C2 : Type)
        (convf1 : C1 → Vec → Vec → C1 × Bool)
        (convf2 : C2 → Vec → Vec → C2 × Bool) (c1 : C1) (c2 : C2)
        (d : ℚ) (x0 : Vec) (t0 : ℚ) (fuel : ℕ),
        run cfg C1 convf1 c1 (some d) x0 t0 fuel
          = run cfg C2 convf2 c2 (some d) x0 t0 fuel)
    ∧ (∀ (cfg : ModelCfg) (C : Type) (convf : C → Vec → Vec → C × Bool)
        (c0 : C) (d : ℚ) (x0 : Vec) (t0 : ℚ) (fuel : ℕ) (res : RunResult),
        run cfg C convf c0 (some d) x0 t0 fuel = some res →
        0 ≤ d → 0 ≤ cfg.max_simulation_period →
        min (t0 + d) (t0 + cfg.max_simulation_period) < res.t
          ∧ res.t ≤ min (t0 + d) (t0 + cfg.max_simulation_period) + cfg.dt)
    ∧ (∀ (cfg : ModelCfg) (C : Type) (convf : C → Vec → Vec → C × Bool)
        (c0 : C) (x0 : Vec) (t0 : ℚ) (fuel : ℕ) (res : RunResult),
        (∀ (c : C) (x y : Vec), (convf c x y).2 = false) →
        run cfg C convf c0 none x0 t0 fuel = some res →
        t0 + cfg.max_simulation_period < res.t)
    ∧ (∀ (cfg : ModelCfg) (C : Type) (convf : C → Vec → Vec → C × Bool)
        (c0 : C) (x0 : Vec) (t0 : ℚ) (fuel : ℕ) (res : RunResult),
        (∀ (c : C) (x y : Vec), (convf c x y).2 = true) →
        run cfg C convf c0 none x0 t0 fuel = some res →
        res.t = t0 + cfg.dt) := by
  refine ⟨?_, ?_, ?_, ?_, ?_⟩
  · intro cfg C convf c0 dur x0 t0 hdt
    have h1 : cfg.max_simulation_period / cfg.dt
        < (Nat.floor (cfg.max_simulation_period / cfg.dt) : ℚ) + 1 :=
      Nat.lt_floor_add_one _
    have h2 : cfg.max_simulation_period
        < ((Nat.floor (cfg.max_simulation_period / cfg.dt) : ℚ) + 1)
            * cfg.dt := by
      rw [div_lt_iff₀ hdt] at h1
      exact h1
    have hlt : t0 + cfg.max_simulation_period
        < t0 + (((Nat.floor (cfg.max_simulation_period / cfg.dt) + 1 : ℕ) : ℚ)
            + 1) * cfg.dt := by
      push_cast
      nlinarith
    show (runLoop cfg C convf (dur.map (fun d => t0 + d))
        (t0 + cfg.max_simulation_period)
        ((Nat.floor (cfg.max_simulation_period / cfg.dt) + 1) + 1)
        x0 t0 [x0] [t0] c0 ⟨none, none⟩ []).isSome = true
    exact runLoop_isSome cfg C convf _ _ _ x0 t0 [x0] [t0] c0 ⟨none, none⟩ []
      hlt
  · intro cfg C1 C2 convf1 convf2 c1 c2 d x0 t0 fuel
    exact runLoop_conv_irrelevant cfg C1 C2 convf1 convf2 (t0 + d)
      (t0 + cfg.max_simulation_period) fuel x0 t0 [x0] [t0] c1 c2
      ⟨none, none⟩ []
  · intro cfg C convf c0 d x0 t0 fuel res h hd hmax
    refine runLoop_dur_bounds cfg C convf (t0 + d)
      (t0 + cfg.max_simulation_period) fuel x0 t0 [x0] [t0] c0
      ⟨none, none⟩ [] res h ?_
    exact le_min (le_add_of_nonneg_right hd) (le_add_of_nonneg_right hmax)
  · intro cfg C convf c0 x0 t0 fuel res hcf h
    exact runLoop_none_exit_tmax cfg C convf _ hcf fuel x0 t0 [x0] [t0] c0
      ⟨none, none⟩ [] res h
  · intro cfg C convf c0 x0 t0 fuel res hcf h
    exact runLoop_none_exit_conv cfg C convf _ hcf fuel x0 t0 [x0] [t0] c0
      ⟨none, none⟩ [] res h

/-- C4 counterexample: for a convergence callback that fires on every
call, a duration-less run stops right after its first day step
(2 recorded times), but the same run with explicit duration 2 performs
3 day steps (4 recorded times): with an explicit duration the
convergence exit is not available, contrary to the claim that all three
exits are available in every invocation. -/
theorem c4_counterexample :
    (convAlways () zVec zVec).2 = true
    ∧ (run cfgTriv Unit convAlways () none zVec 0 10).map
        (fun r => r.ts.length) = some 2
    ∧ (run cfgTriv Unit convAlways () (some 2) zVec 0 10).map
        (fun r => r.ts.length) = some 4 := by
  refine ⟨rfl, ?_, ?_⟩
  · norm_num [run, runLoop, dayStep, subSteps, rk4_step_eq_fun, rk4Raw,
      watchStep, minOpt, cfgTriv, zeroDiff, zVec, convAlways, Option.map]
  · norm_num [run, runLoop, dayStep, subSteps, rk4_step_eq_fun, rk4Raw,
      watchStep, minOpt, cfgTriv, zeroDiff, zVec, convAlways, Option.map]

/-- Evaluation of a duration-less run with an always-firing convergence
callback: the loop breaks right after its first day step, producing the
same artifacts as the duration-0 run. -/
lemma run_cfgTriv_none_eval :
    run cfgTriv Unit convAlways () none zVec 0 2 = some resTriv := by
  norm_num [run, runLoop, dayStep, subSteps, rk4_step_eq_fun, rk4Raw,
    watchStep, minOpt, cfgTriv, zeroDiff, zVec, convAlways, resTriv,
    Option.map]
  rfl

/-- C4 witness: termination fuel suffices for the trivial model,
convergence-independence at concrete arguments, the exit-time bounds of
a concrete duration-0 run, and the immediate convergence exit of a
concrete duration-less run. -/
theorem c4_run_termination_and_exits_wit :
    (run cfgTriv Unit convNever () (some 0) zVec 0
        (sufficientFuel cfgTriv)).isSome = true
    ∧ run cfgTriv Unit convNever () (some 2) zVec 0 4
        = run cfgTriv Unit convAlways () (some 2) zVec 0 4
    ∧ (min ((0 : ℚ) + 0) (0 + cfgTriv.max_simulation_period) < resTriv.t
        ∧ resTriv.t
            ≤ min ((0 : ℚ) + 0) (0 + cfgTriv.max_simulation_period)
                + cfgTriv.dt)
    ∧ resTriv.t = 0 + cfgTriv.dt :=
  ⟨c4_run_termination_and_exits.1 cfgTriv Unit convNever () (some 0) zVec 0
      (by norm_num [cfgTriv]),
    c4_run_termination_and_exits.2.1 cfgTriv Unit Unit convNever convAlways
      () () 2 zVec 0 4,
    c4_run_termination_and_exits.2.2.1 cfgTriv Unit convNever () 0 zVec 0 3
      resTriv run_cfgTriv_eval (le_refl 0) (by norm_num [cfgTriv]),
    c4_run_termination_and_exits.2.2.2.2 cfgTriv Unit convAlways () zVec 0 2
      resTriv (fun _ _ _ => rfl) run_cfgTriv_none_eval⟩

/-!  Overflow-onset bookkeeping (C8). -/

/-- `min(t_old, t) ≤ t` with `none` as infinity. -/
lemma minOpt_le_right (o : Option ℚ) (t : ℚ) : minOpt o t ≤ t := by
  cases o with
  | none => exact le_refl t
  | some s => exact min_le_right s t

/-- Characterisation of the watcher fold: it returns `none` exactly when
nothing fired, and when it returns `some q`, `q` is a lower bound of all
fired times, is attained (by the seed or by a fired pair), and never
exceeds the seed. -/
lemma foldl_fireStep_char (cap : ℚ) (idx : Fin 8) :
    ∀ (l : List (ℚ × Vec)) (o : Option ℚ),
      (l.foldl (fireStep cap idx) o = none ↔
        o = none ∧ ∀ pr ∈ l, ¬ cap ≤ pr.2 idx)
      ∧ (∀ q, l.foldl (fireStep cap idx) o = some q →
          (∀ pr ∈ l, cap ≤ pr.2 idx → q ≤ pr.1)
          ∧ (o = some q ∨ ∃ pr ∈ l, cap ≤ pr.2 idx ∧ pr.1 = q)
          ∧ (∀ q0, o = some q0 → q ≤ q0)) := by
  intro l
  induction l with
  | nil =>
      intro o
      constructor
      · simp
      · intro q hq
        simp only [List.foldl_nil] at hq
        subst hq
        refine ⟨by simp, Or.inl rfl, ?_⟩
        intro q0 h0
        injection h0 with h0
        subst h0
        exact le_refl _
  | cons p l ih =>
      intro o
      rw [List.foldl_cons]
      by_cases hp : cap ≤ p.2 idx
      · have hf : fireStep cap idx o p = some (minOpt o p.1) := if_pos hp
        rw [hf]
        constructor
        · rw [(ih (some (minOpt o p.1))).1]
          constructor
          · rintro ⟨h1, _⟩
            exact absurd h1 (Option.some_ne_none _)
          · rintro ⟨_, hall⟩
            exact absurd hp (hall p (List.mem_cons_self p l))
        · intro q hq
          obtain ⟨hlb, hach, hmono⟩ := (ih (some (minOpt o p.1))).2 q hq
          refine ⟨?_, ?_, ?_⟩
          · intro pr hpr hfired
            rcases List.mem_cons.mp hpr with h1 | h2
            · subst h1
              exact (hmono _ rfl).trans (minOpt_le_right o pr.1)
            · exact hlb pr h2 hfired
          · rcases hach with h1 | h2
            · injection h1 with h1
              cases o with
              | none =>
                  exact Or.inr ⟨p, List.mem_cons_self p l, hp, h1⟩
              | some s =>
                  rcases min_cases s p.1 with ⟨hmin, _⟩ | ⟨hmin, _⟩
                  · left
                    rw [← h1]
                    exact congrArg some
                      (show s = minOpt (some s) p.1 from hmin.symm)
                  · right
                    refine ⟨p, List.mem_cons_self p l, hp, ?_⟩
                    rw [← h1]
                    exact (show minOpt (some s) p.1 = p.1 from hmin).symm ▸ rfl
            · rcases h2 with ⟨pr, hpr, hf2, he⟩
              exact Or.inr ⟨pr, List.mem_cons_of_mem p hpr, hf2, he⟩
          · intro q0 h0
            calc q ≤ minOpt o p.1 := hmono _ rfl
              _ ≤ q0 := by
                rw [h0]
                exact min_le_left _ _
      · have hf : fireStep cap idx o p = o := if_neg hp
        rw [hf]
        constructor
        · rw [(ih o).1]
          constructor
          · rintro ⟨h1, hall⟩
            refine ⟨h1, ?_⟩
            intro pr hpr
            rcases List.mem_cons.mp hpr with hh | hh
            · subst hh
              exact hp
            · exact hall pr hh
          · rintro ⟨h1, hall⟩
            exact ⟨h1, fun pr hpr => hall pr (List.mem_cons_of_mem p hpr)⟩
        · intro q hq
          obtain ⟨hlb, hach, hmono⟩ := (ih o).2 q hq
          refine ⟨?_, ?_, hmono⟩
          · intro pr hpr hfired
            rcases List.mem_cons.mp hpr with hh | hh
            · subst hh
              exact absurd hfired hp
            · exact hlb pr hh hfired
          · rcases hach with h1 | h2
            · exact Or.inl h1
            · rcases h2 with ⟨pr, hpr, hf2, he⟩
              exact Or.inr ⟨pr, List.mem_cons_of_mem p hpr, hf2, he⟩

/-- The watcher cells after a day of sub-steps are the watcher fold over
the recorded watched pairs. -/
lemma subSteps_watch_char (cfg : ModelCfg) (dt : ℚ) :
    ∀ (n : ℕ) (x : Vec) (t : ℚ) (w : WatchSt) (acc : List (ℚ × Vec)),
      w.hospital_overflow_t = firedMin cfg.hospital_capacity 4 acc →
      w.icu_overflow_t = firedMin cfg.icu_capacity 3 acc →
      (subSteps cfg dt n x t w acc).2.2.1.hospital_overflow_t
          = firedMin cfg.hospital_capacity 4
              (subSteps cfg dt n x t w acc).2.2.2
        ∧ (subSteps cfg dt n x t w acc).2.2.1.icu_overflow_t
          = firedMin cfg.icu_capacity 3
              (subSteps cfg dt n x t w acc).2.2.2 := by
  intro n
  induction n with
  | zero =>
      intro x t w acc h1 h2
      exact ⟨h1, h2⟩
  | succ n ih =>
      intro x t w acc h1 h2
      refine ih (rk4_step cfg x t dt) (t + dt) (watchStep cfg w x t)
        (acc ++ [(t, x)]) ?_ ?_
      · rw [firedMin] at h1 ⊢
        rw [List.foldl_append]
        simp only [List.foldl_cons, List.foldl_nil]
        rw [← h1]
        rfl
      · rw [firedMin] at h2 ⊢
        rw [List.foldl_append]
        simp only [List.foldl_cons, List.foldl_nil]
        rw [← h2]
        rfl

/-- Loop invariant: the final watcher cells are the watcher fold over
all watched pairs of the run. -/
lemma runLoop_watch_char (cfg : ModelCfg) (C : Type)
    (convf : C → Vec → Vec → C × Bool) (tf : Option ℚ) (tmax : ℚ) :
    ∀ (fuel : ℕ) (x : Vec) (t : ℚ) (xs : List Vec) (ts : List ℚ) (c : C)
      (w : WatchSt) (acc : List (ℚ × Vec)) (res : RunResult),
      runLoop cfg C convf tf tmax fuel x t xs ts c w acc = some res →
      w.hospital_overflow_t = firedMin cfg.hospital_capacity 4 acc →
      w.icu_overflow_t = firedMin cfg.icu_capacity 3 acc →
      res.watch.hospital_overflow_t
          = firedMin cfg.hospital_capacity 4 res.watched
        ∧ res.watch.icu_overflow_t = firedMin cfg.icu_capacity 3 res.watched := by
  intro fuel
  induction fuel with
  | zero =>
      intro x t xs ts c w acc res h
      exact absurd h (by simp [runLoop])
  | succ fuel ih =>
      intro x t xs ts c w acc res h h1 h2
      have hsub := subSteps_watch_char cfg (cfg.dt / (cfg.steps_per_day : ℚ))
        cfg.steps_per_day x t w acc h1 h2
      cases tf with
      | none =>
          rw [runLoop] at h
          split at h
          · injection h with h
            subst h
            exact hsub
          · exact ih _ _ _ _ _ _ _ _ h hsub.1 hsub.2
      | some tfv =>
          rw [runLoop] at h
          split at h
          · injection h with h
            subst h
            exact hsub
          · exact ih _ _ _ _ _ _ _ _ h hsub.1 hsub.2

/-- C8 amended.  After a run, the overflow cells are exactly the watcher
fold over all watched sub-step pairs; hence `hospital_overflow_date`
(`= advanceDays` of the cell) is `None` iff the hospitalized component
stayed strictly BELOW `hospital_capacity` at every watched sub-step (the
watcher fires at `h >= capacity`, not strictly above), and when the cell
holds `some q`, `q` is the earliest watched time at which the component
reached the capacity; likewise for the ICU cell. -/
theorem c8_overflow_dates (cfg : ModelCfg) (C : Type)
    (convf : C → Vec → Vec → C × Bool) (c0 : C) (dur : Option ℚ) (x0 : Vec)
    (t0 : ℚ) (fuel : ℕ) (res : RunResult)
    (h : run cfg C convf c0 dur x0 t0 fuel = some res) :
    (res.watch.hospital_overflow_t
        = firedMin cfg.hospital_capacity 4 res.watched
      ∧ res.watch.icu_overflow_t = firedMin cfg.icu_capacity 3 res.watched)
    ∧ (advanceDays res.watch.hospital_overflow_t = none
        ↔ ∀ pr ∈ res.watched, pr.2 4 < cfg.hospital_capacity)
    ∧ (advanceDays res.watch.icu_overflow_t = none
        ↔ ∀ pr ∈ res.watched, pr.2 3 < cfg.icu_capacity)
    ∧ (∀ q, res.watch.hospital_overflow_t = some q →
        (∀ pr ∈ res.watched, cfg.hospital_capacity ≤ pr.2 4 → q ≤ pr.1)
        ∧ ∃ pr ∈ res.watched, cfg.hospital_capacity ≤ pr.2 4 ∧ pr.1 = q)
    ∧ (∀ q, res.watch.icu_overflow_t = some q →
        (∀ pr ∈ res.watched, cfg.icu_capacity ≤ pr.2 3 → q ≤ pr.1)
        ∧ ∃ pr ∈ res.watched, cfg.icu_capacity ≤ pr.2 3 ∧ pr.1 = q) := by
  obtain ⟨hH, hC⟩ := runLoop_watch_char cfg C convf
    (dur.map (fun d => t0 + d)) (t0 + cfg.max_simulation_period) fuel x0 t0
    [x0] [t0] c0 ⟨none, none⟩ [] res h rfl rfl
  refine ⟨⟨hH, hC⟩, ?_, ?_, ?_, ?_⟩
  · rw [advanceDays, Option.map_eq_none', hH, firedMin,
      (foldl_fireStep_char _ _ res.watched none).1]
    simp [not_le]
  · rw [advanceDays, Option.map_eq_none', hC, firedMin,
      (foldl_fireStep_char _ _ res.watched none).1]
    simp [not_le]
  · intro q hq
    rw [hH, firedMin] at hq
    obtain ⟨hlb, hach, _⟩ := (foldl_fireStep_char _ _ res.watched none).2 q hq
    refine ⟨hlb, ?_⟩
    rcases hach with h1 | h2
    · exact absurd h1 (by simp)
    · exact h2
  · intro q hq
    rw [hC, firedMin] at hq
    obtain ⟨hlb, hach, _⟩ := (foldl_fireStep_char _ _ res.watched none).2 q hq
    refine ⟨hlb, ?_⟩
    rcases hach with h1 | h2
    · exact absurd h1 (by simp)
    · exact h2

/-- Evaluation of a run in which the hospitalized total equals the
capacity (1) at both watched sub-steps. -/
lemma run_c8_eval :
    run cfgTriv Unit convNever () (some 1) oneVec 0 5 = some resC8 := by
  norm_num [run, runLoop, dayStep, subSteps, rk4_step_eq_fun, rk4Raw,
    watchStep, minOpt, cfgTriv, zeroDiff, oneVec, convNever, resC8,
    Option.map]
  rfl

/-- C8 counterexample: in a run whose hospitalized demand equals the
capacity at every watched sub-step — so demand never EXCEEDS capacity —
the overflow date is `some 0` (the run's start date), not `None` as the
claimed iff requires. -/
theorem c8_counterexample :
    run cfgTriv Unit convNever () (some 1) oneVec 0 5 = some resC8
    ∧ advanceDays resC8.watch.hospital_overflow_t = some 0
    ∧ resC8.watched = [(0, oneVec), (1, oneVec)]
    ∧ ¬ cfgTriv.hospital_capacity < oneVec 4 := by
  refine ⟨run_c8_eval, ?_, rfl, ?_⟩
  · show advanceDays (some 0) = some 0
    simp [advanceDays, intTrunc]
  · norm_num [cfgTriv, oneVec]

/-- C8 witness: the fold characterisation of the watcher cells on a
concrete run. -/
theorem c8_overflow_dates_wit :
    resTriv.watch.hospital_overflow_t
        = firedMin cfgTriv.hospital_capacity 4 resTriv.watched
    ∧ resTriv.watch.icu_overflow_t
        = firedMin cfgTriv.icu_capacity 3 resTriv.watched :=
  (c8_overflow_dates cfgTriv Unit convNever () (some 0) zVec 0 3 resTriv
    run_cfgTriv_eval).1

/-!  Monotone fatalities (C9). -/

/-- The non-negativity clamp never decreases a component. -/
lemma rk4_step_ge_raw (cfg : ModelCfg) (x : Vec) (t dt : ℚ) (j : Fin 8) :
    rk4Raw cfg x t dt j ≤ rk4_step cfg x t dt j := by
  simp only [rk4_step]
  split
  · exact le_refl _
  · exact le_of_not_lt ‹_›

/-- If every derivative evaluation has a non-negative fatalities
component, a clamped RK4 sub-step with `dt ≥ 0` cannot decrease the
fatalities component. -/
lemma rk4_step_f_mono (cfg : ModelCfg)
    (hd : ∀ (y : Vec) (s : ℚ), 0 ≤ cfg.diff y s 7) (x : Vec) (t dt : ℚ)
    (hdt : 0 ≤ dt) : x 7 ≤ rk4_step cfg x t dt 7 := by
  refine le_trans ?_ (rk4_step_ge_raw cfg x t dt 7)
  simp only [rk4Raw]
  have key : ∀ a b c d : ℚ, 0 ≤ a → 0 ≤ b → 0 ≤ c → 0 ≤ d →
      x 7 ≤ x 7 + (a + 2 * b + 2 * c + d) / 6 * dt := by
    intro a b c d ha hb hc hd'
    have hnn : 0 ≤ (a + 2 * b + 2 * c + d) / 6 * dt :=
      mul_nonneg (div_nonneg (by linarith) (by norm_num)) hdt
    linarith
  exact key _ _ _ _ (hd _ _) (hd _ _) (hd _ _) (hd _ _)

/-- A whole day of sub-steps cannot decrease the fatalities component. -/
lemma subSteps_f_mono (cfg : ModelCfg)
    (hd : ∀ (y : Vec) (s : ℚ), 0 ≤ cfg.diff y s 7) (dt : ℚ) (hdt : 0 ≤ dt) :
    ∀ (n : ℕ) (x : Vec) (t : ℚ) (w : WatchSt) (acc : List (ℚ × Vec)),
      x 7 ≤ (subSteps cfg dt n x t w acc).1 7 := by
  intro n
  induction n with
  | zero => intro x t w acc; exact le_refl _
  | succ n ih =>
      intro x t w acc
      exact le_trans (rk4_step_f_mono cfg hd x t dt hdt)
        (ih (rk4_step cfg x t dt) (t + dt) (watchStep cfg w x t)
          (acc ++ [(t, x)]))

/-- Loop invariant for the monotonicity of the recorded fatalities. -/
lemma runLoop_f_pairwise (cfg : ModelCfg) (C : Type)
    (convf : C → Vec → Vec → C × Bool) (tf : Option ℚ) (tmax : ℚ)
    (hd : ∀ (y : Vec) (s : ℚ), 0 ≤ cfg.diff y s 7) (hdt : 0 ≤ cfg.dt) :
    ∀ (fuel : ℕ) (x : Vec) (t : ℚ) (xs : List Vec) (ts : List ℚ) (c : C)
      (w : WatchSt) (acc : List (ℚ × Vec)) (res : RunResult),
      runLoop cfg C convf tf tmax fuel x t xs ts c w acc = some res →
      List.Pairwise (fun u v : Vec => u 7 ≤ v 7) xs →
      (∀ v ∈ xs, v 7 ≤ x 7) →
      List.Pairwise (fun u v : Vec => u 7 ≤ v 7) res.xs := by
  intro fuel
  induction fuel with
  | zero =>
      intro x t xs ts c w acc res h
      exact absurd h (by simp [runLoop])
  | succ fuel ih =>
      intro x t xs ts c w acc res h hpair hub
      have hdt' : 0 ≤ cfg.dt / (cfg.steps_per_day : ℚ) :=
        div_nonneg hdt (Nat.cast_nonneg _)
      have hx' : x 7 ≤ (dayStep cfg x t w acc).1 7 :=
        subSteps_f_mono cfg hd _ hdt' cfg.steps_per_day x t w acc
      have hpair' : List.Pairwise (fun u v : Vec => u 7 ≤ v 7)
          (xs ++ [(dayStep cfg x t w acc).1]) := by
        rw [List.pairwise_append]
        refine ⟨hpair, List.pairwise_singleton _ _, ?_⟩
        intro a ha b hb
        rw [List.mem_singleton] at hb
        subst hb
        exact (hub a ha).trans hx'
      have hub' : ∀ v ∈ xs ++ [(dayStep cfg x t w acc).1],
          v 7 ≤ (dayStep cfg x t w acc).1 7 := by
        intro v hv
        rcases List.mem_append.mp hv with h1 | h2
        · exact (hub v h1).trans hx'
        · rw [List.mem_singleton] at h2
          subst h2
          exact le_refl _
      cases tf with
      | none =>
          rw [runLoop] at h
          split at h
          · injection h with h
            subst h
            exact hpair'
          · exact ih _ _ _ _ _ _ _ _ h hpair' hub'
      | some tfv =>
          rw [runLoop] at h
          split at h
          · injection h with h
            subst h
            exact hpair'
          · exact ih _ _ _ _ _ _ _ _ h hpair' hub'

/-- C9.  `SEICHAR.diff_f` is non-negative whenever its overflow /
within-ICU / ICU-overflow inputs are non-negative and the probabilities
and rates involved are non-negative; the per-sub-step clamp never
decreases any component; and for every run whose derivative always has a
non-negative fatalities component (index 7) and whose `dt ≥ 0`, the
fatalities component of the recorded series is non-decreasing: any later
reporting step has at least the fatalities of any earlier one. -/
theorem c9_fatalities_monotone :
    (∀ p : SEICHARParams,
        0 ≤ p.prob_fatality → 0 ≤ p.prob_no_hospitalization_fatality →
        0 ≤ p.prob_no_icu_fatality → 0 ≤ p.gamma_c → 0 ≤ p.gamma_hr →
        0 ≤ p.gamma_cr →
        ∀ hplus cminus cplus t : ℚ,
          0 ≤ hplus → 0 ≤ cminus → 0 ≤ cplus →
          0 ≤ diff_f p hplus cminus cplus t)
    ∧ (∀ (cfg : ModelCfg) (x : Vec) (t dt : ℚ) (j : Fin 8),
        rk4Raw cfg x t dt j ≤ rk4_step cfg x t dt j)
    ∧ (∀ (cfg : ModelCfg) (C : Type) (convf : C → Vec → Vec → C × Bool)
        (c0 : C) (dur : Option ℚ) (x0 : Vec) (t0 : ℚ) (fuel : ℕ)
        (res : RunResult),
        (∀ (y : Vec) (s : ℚ), 0 ≤ cfg.diff y s 7) → 0 ≤ cfg.dt →
        run cfg C convf c0 dur x0 t0 fuel = some res →
        List.Pairwise (fun u v : Vec => u 7 ≤ v 7) res.xs) := by
  refine ⟨?_, rk4_step_ge_raw, ?_⟩
  · intro p hpf hpnh hpni hgc hghr hgcr hplus cminus cplus t hh hcm hcp
    have h1 : 0 ≤ p.prob_fatality * p.gamma_c * cminus :=
      mul_nonneg (mul_nonneg hpf hgc) hcm
    have h2 : 0 ≤ p.prob_no_hospitalization_fatality * p.gamma_hr * hplus :=
      mul_nonneg (mul_nonneg hpnh hghr) hh
    have h3 : 0 ≤ p.prob_no_icu_fatality * p.gamma_cr * cplus :=
      mul_nonneg (mul_nonneg hpni hgcr) hcp
    rw [diff_f]
    linarith
  · intro cfg C convf c0 dur x0 t0 fuel res hd hdt h
    refine runLoop_f_pairwise cfg C convf _ _ hd hdt fuel x0 t0 [x0] [t0]
      c0 ⟨none, none⟩ [] res h (List.pairwise_singleton _ _) ?_
    intro v hv
    rw [List.mem_singleton] at hv
    subst hv
    exact le_refl _

/-- C9 witness: the three parts at concrete inputs (simple parameters, a
concrete clamp comparison, and the recorded series of a concrete run). -/
theorem c9_fatalities_monotone_wit :
    0 ≤ diff_f pW 1 1 1 0
    ∧ rk4Raw cfgTriv zVec 0 1 5 ≤ rk4_step cfgTriv zVec 0 1 5
    ∧ List.Pairwise (fun u v : Vec => u 7 ≤ v 7) resTriv.xs :=
  ⟨c9_fatalities_monotone.1 pW (by norm_num [pW]) (by norm_num [pW])
      (by norm_num [pW]) (by norm_num [pW]) (by norm_num [pW])
      (by norm_num [pW]) 1 1 1 0 (by norm_num) (by norm_num) (by norm_num),
    c9_fatalities_monotone.2.1 cfgTriv zVec 0 1 5,
    c9_fatalities_monotone.2.2 cfgTriv Unit convNever () (some 0) zVec 0 3
      resTriv (fun _ _ => le_refl 0) (by norm_num [cfgTriv]) run_cfgTriv_eval⟩

end Covid
